import Mathlib

/-!
Verification development for the Insightor research assistant.

The frontend (React) is embedded from the JavaScript source files:
`normalizeSimilarity` and the search-input submit handler from
`components/ResearchContainer.jsx` / `components/SearchInput.jsx`,
the `/research` response handling from `pages/ResearchApp.jsx`, and the
authenticated fetch wrapper from `api/client.js`.  JavaScript numbers are
modelled as rationals (`ℚ`), `undefined`/`null` as `Option`, thrown
exceptions as `Except`, and `localStorage` as an association list.

The backend pipeline (search, reader, memory subsystem, summarization
fallback chain) is not present in the repository snapshot; those
components are modelled from the specification text, as marked on each
definition.
-/

namespace Insightor

/-! ## JavaScript primitives -/

/-- JavaScript `Math.round`: round half toward positive infinity. -/
def jsRound (q : ℚ) : ℤ := ⌊q + 1/2⌋

/-- JavaScript `String.prototype.trim()`: strip whitespace from both ends. -/
def jsTrim (s : String) : String :=
  ⟨((s.data.dropWhile Char.isWhitespace).reverse.dropWhile Char.isWhitespace).reverse⟩

/-- JavaScript `a || b` on a possibly-missing number: `undefined`, `null`
and `0` are falsy, so the right operand is returned for them. -/
def jsOrQ (a b : Option ℚ) : Option ℚ :=
  match a with
  | none => b
  | some v => if v = 0 then b else some v

/-- JavaScript `a || b` on strings: the empty string is falsy. -/
def jsOrStr (a b : String) : String :=
  if a = "" then b else a

/-! ## `normalizeSimilarity` (ResearchContainer.jsx)

Embeds the utility at the top of the research container component:

```js
const normalizeSimilarity = (rawValue, index = 0) => {
  if (rawValue === undefined || rawValue === null) {
    return Math.max(15, 85 - (index * 8));
  }
  let normalized;
  if (rawValue < 0) {
    normalized = Math.abs(rawValue);
    if (normalized <= 1) { normalized = normalized * 100; }
  } else if (rawValue <= 1) {
    normalized = rawValue * 100;
  } else {
    normalized = rawValue;
  }
  return Math.max(15, Math.min(95, Math.round(normalized)));
};
```
-/

def normalizeSimilarity (rawValue : Option ℚ) (index : ℕ) : ℤ :=
  match rawValue with
  | none => max 15 (85 - (index : ℤ) * 8)
  | some v =>
      let normalized : ℚ :=
        if v < 0 then
          let a := |v|
          if a ≤ 1 then a * 100 else a
        else if v ≤ 1 then v * 100
        else v
      max 15 (min 95 (jsRound normalized))

/-- The raw score the chunk renderer feeds to `normalizeSimilarity`:
`chunk.similarity || chunk.score || chunk.distance || chunk.relevance`. -/
def chunkRawScore (similarity score distance relevance : Option ℚ) : Option ℚ :=
  jsOrQ similarity (jsOrQ score (jsOrQ distance relevance))

/-- The percentage badge the knowledge-base renderer displays for a memory
chunk at list position `index` (ResearchContainer.jsx). -/
def chunkDisplayPercent (similarity score distance relevance : Option ℚ)
    (index : ℕ) : ℤ :=
  normalizeSimilarity (chunkRawScore similarity score distance relevance) index

/-- The percentage the past-research renderer displays:
`(memory.similarity * 100).toFixed(0)` — a direct rescale of the raw score,
with `toFixed(0)` rounding ties toward the larger integer like `Math.round`. -/
def pastMemoryDisplayPercent (similarity : ℚ) : ℤ :=
  jsRound (similarity * 100)

/-- Shared bound: `normalizeSimilarity` always lands in `[15, 95]`. -/
lemma normalizeSimilarity_mem (raw : Option ℚ) (i : ℕ) :
    15 ≤ normalizeSimilarity raw i ∧ normalizeSimilarity raw i ≤ 95 := by
  cases raw with
  | none =>
      simp only [normalizeSimilarity]
      refine ⟨le_max_left _ _, max_le (by norm_num) ?_⟩
      have h8 : (0 : ℤ) ≤ (i : ℤ) * 8 := by positivity
      omega
  | some v =>
      simp only [normalizeSimilarity]
      exact ⟨le_max_left _ _, max_le (by norm_num) (min_le_left _ _)⟩

/-- C8: `normalizeSimilarity` is total and bounded: every raw input
(`undefined`/`null` modelled as `none`, or any rational — negative, in
`[0,1]`, or above `1`) with any non-negative index yields an integer in
`[15, 95]`, and a missing score at position `i` yields `max 15 (85 - 8*i)`. -/
theorem normalizeSimilarity_total_bounded (raw : Option ℚ) (i : ℕ) :
    (15 ≤ normalizeSimilarity raw i ∧ normalizeSimilarity raw i ≤ 95) ∧
    normalizeSimilarity none i = max 15 (85 - 8 * (i : ℤ)) := by
  refine ⟨normalizeSimilarity_mem raw i, ?_⟩
  simp only [normalizeSimilarity]
  have h : (i : ℤ) * 8 = 8 * (i : ℤ) := by ring
  rw [h]

/-! ## SearchInput.jsx — submit handler

```js
const handleSubmit = (e) => {
  e.preventDefault();
  if (!query.trim()) {
    warning('Please enter a search query to begin your research');
    return;
  }
  if (!loading) {
    onSubmit(query);
    setQuery('');
  }
};
```
-/

/-- The `handleSubmit` handler of SearchInput.jsx, as the query it hands to `onSubmit`:
`none` when no request is issued (blank query shows a warning and returns;
a submit while `loading` is ignored). -/
def handleSubmit (query : String) (loading : Bool) : Option String :=
  if jsTrim query = "" then none
  else if loading then none
  else some query

/-! ## ResearchApp.jsx — `/research` response handling -/

/-- A search result as rendered by the frontend. -/
structure FrontSearchResult where
  title : String
  url : String
  snippet : String
deriving DecidableEq

/-- The parsed `/research` response body as consumed by `handleSearch`.
`error` is the `error` field with `""` for an absent value (JS reads it
through `response.error || ...`); memory payload elements are opaque to
every claim here and are modelled as strings. -/
structure ResearchResponse where
  status : String
  final_summary : String
  top_insights : List String
  search_results : List FrontSearchResult
  relevant_memory_chunks : List String
  past_research_memories : List String
  error : String
deriving DecidableEq

/-- The component state of ResearchApp.jsx (`useState` hooks). -/
structure UIState where
  query : String
  loading : Bool
  results : List FrontSearchResult
  summary : String
  insights : List String
  memoryChunks : List String
  pastMemories : List String
  error : String
deriving DecidableEq

/-- The prologue of `handleSearch`: before issuing the request it sets the
query, turns `loading` on, and clears error, summary, results, insights,
memory chunks and past memories. -/
def clearForSearch (s : UIState) (searchQuery : String) : UIState :=
  { s with query := searchQuery, loading := true, error := "", summary := "",
           results := [], insights := [], memoryChunks := [], pastMemories := [] }

/-- The `handleSearch` handler of ResearchApp.jsx as a state transformer: the outcome of
`apiPost('/research', ...)` is either a parsed response (`Except.ok`) or a
thrown error message (`Except.error`).  Only `status === 'success'`
populates the display fields; any other status sets the error message; the
`finally` block turns `loading` off on every path. -/
def handleSearch (s : UIState) (searchQuery : String)
    (outcome : Except String ResearchResponse) : UIState :=
  let c := clearForSearch s searchQuery
  match outcome with
  | Except.ok response =>
      if response.status = "success" then
        { c with summary := response.final_summary,
                 results := response.search_results,
                 insights := response.top_insights,
                 memoryChunks := response.relevant_memory_chunks,
                 pastMemories := response.past_research_memories,
                 loading := false }
      else
        { c with error := jsOrStr response.error "Failed to complete research",
                 loading := false }
  | Except.error message =>
      { c with error := jsOrStr message "Failed to connect to the research service. Make sure the backend is running on port 8000 and you are authenticated.",
               loading := false }

/-- A blank ResearchApp state (the initial `useState` values). -/
def initialUIState : UIState :=
  { query := "", loading := false, results := [], summary := "", insights := [],
    memoryChunks := [], pastMemories := [], error := "" }

/-! ## api/client.js — authenticated fetch wrapper -/

/-- An HTTP response as seen by `api`: numeric status, the parsed JSON body
(`response.json()`), and the `detail` field of an error body (`none` when
the body is unparseable or has no such field, after the
`.catch(() => ({ detail: response.statusText }))` default is folded in). -/
structure FetchResponse where
  status : ℕ
  body : String
  detail : Option String
deriving DecidableEq

/-- JavaScript `response.ok`: status in the 200–299 range. -/
def respOk (r : FetchResponse) : Bool :=
  decide (200 ≤ r.status ∧ r.status < 300)

/-- JavaScript `localStorage.removeItem`. -/
def removeItem (st : List (String × String)) (key : String) :
    List (String × String) :=
  st.filter (fun p => p.1 != key)

/-- The three `removeItem` calls of the 401 branch of `api`. -/
def removeCreds (st : List (String × String)) : List (String × String) :=
  removeItem (removeItem (removeItem st "token") "user_id") "user_email"

/-- The message of the error thrown on a non-ok, non-401 response:
`error.detail || 'API error: <status>'`. -/
def apiErrorMessage (r : FetchResponse) : String :=
  match r.detail with
  | some d => jsOrStr d ("API error: " ++ toString r.status)
  | none => "API error: " ++ toString r.status

/-- The `api` function of api/client.js over an already-received response: returns the
parsed body or the thrown error message, together with the localStorage
contents after the call.  The 401 branch clears the stored credentials and
throws; any other non-ok response throws with the body's detail. -/
def api (r : FetchResponse) (st : List (String × String)) :
    Except String String × List (String × String) :=
  if r.status = 401 then
    (Except.error "Authentication expired. Please login again.", removeCreds st)
  else if respOk r then
    (Except.ok r.body, st)
  else
    (Except.error (apiErrorMessage r), st)

/-! ## Theorems about the frontend source -/

/-- C7: every query actually handed to `onSubmit` (and hence sent to
`/research`) is non-blank: `handleSubmit` refuses blank or whitespace-only
queries, so the submitted string trims to something non-empty. -/
theorem handleSubmit_sends_nonblank (query sent : String) (loading : Bool)
    (h : handleSubmit query loading = some sent) :
    jsTrim sent ≠ "" ∧ sent = query := by
  unfold handleSubmit at h
  by_cases h1 : jsTrim query = ""
  · simp [h1] at h
  · cases loading with
    | true => simp [h1] at h
    | false =>
        simp [h1] at h
        subst h
        exact ⟨h1, rfl⟩

/-- Witness for C7 at a concrete padded query. -/
theorem handleSubmit_sends_nonblank_witness :
    jsTrim "  climate change  " ≠ "" ∧
    "  climate change  " = "  climate change  " :=
  handleSubmit_sends_nonblank "  climate change  " "  climate change  " false
    (by decide)

/-- C9: `handleSearch` first clears every previously displayed field
(summary, results, insights, memory chunks, past memories, error) and turns
`loading` on; whatever the outcome — parsed response of any status or a
thrown error — `loading` ends up `false`, and any outcome other than a
`status = "success"` response leaves the summary empty, so a failed search
never shows a stale summary. -/
theorem handleSearch_clears_and_resets (s : UIState) (q : String)
    (r : ResearchResponse) (m : String) :
    ((clearForSearch s q).summary = "" ∧ (clearForSearch s q).results = [] ∧
     (clearForSearch s q).insights = [] ∧
     (clearForSearch s q).memoryChunks = [] ∧
     (clearForSearch s q).pastMemories = [] ∧
     (clearForSearch s q).error = "" ∧ (clearForSearch s q).loading = true) ∧
    (handleSearch s q (Except.ok r)).loading = false ∧
    (handleSearch s q (Except.error m)).loading = false ∧
    (handleSearch s q (Except.error m)).summary = "" ∧
    (r.status = "success" ∨ (handleSearch s q (Except.ok r)).summary = "") := by
  refine ⟨⟨rfl, rfl, rfl, rfl, rfl, rfl, rfl⟩, ?_, rfl, rfl, ?_⟩
  · by_cases h : r.status = "success" <;> simp [handleSearch, h]
  · by_cases h : r.status = "success"
    · exact Or.inl h
    · exact Or.inr (by simp [handleSearch, h, clearForSearch])

/-- C10: the fetch wrapper returns the parsed body exactly on an ok
response (leaving localStorage untouched), throws on every other response,
and on a 401 removes the stored `token`, `user_id` and `user_email` before
throwing; no branch but the 401 one touches storage. -/
theorem api_contract (r : FetchResponse) (st : List (String × String)) :
    ((api r st).1 = Except.ok r.body ↔ respOk r = true) ∧
    (respOk r = false ∨ api r st = (Except.ok r.body, st)) ∧
    (r.status = 401 ∨ (api r st).2 = st) ∧
    (r.status < 401 ∨ 401 < r.status ∨
      ((api r st).1 = Except.error "Authentication expired. Please login again." ∧
       (api r st).2 = removeCreds st)) := by
  by_cases h401 : r.status = 401
  · have hok : respOk r = false := by simp [respOk, h401]
    refine ⟨?_, Or.inl hok, Or.inl h401, ?_⟩
    · simp [api, h401, hok]
    · exact Or.inr (Or.inr (by simp [api, h401]))
  · by_cases hok : respOk r = true
    · refine ⟨?_, Or.inr ?_, Or.inr ?_, ?_⟩
      · simp [api, h401, hok]
      · simp [api, h401, hok]
      · simp [api, h401, hok]
      · rcases Nat.lt_or_ge r.status 401 with h | h
        · exact Or.inl h
        · exact Or.inr (Or.inl (lt_of_le_of_ne h (fun e => h401 e.symm)))
    · have hok' : respOk r = false := by
        cases hfull : respOk r
        · rfl
        · exact absurd hfull hok
      refine ⟨?_, Or.inl hok', Or.inr ?_, ?_⟩
      · simp [api, h401, hok']
      · simp [api, h401, hok']
      · rcases Nat.lt_or_ge r.status 401 with h | h
        · exact Or.inl h
        · exact Or.inr (Or.inl (lt_of_le_of_ne h (fun e => h401 e.symm)))

/-- The `/research` response used to exhibit the `PartialFailure`
behaviour of `handleSearch`: a populated summary and one search result. -/
def partialFailureResponse : ResearchResponse :=
  { status := "PartialFailure",
    final_summary := "Extractive summary of the retrieved sources.",
    top_insights := [],
    search_results := [{ title := "Mitigation overview",
                         url := "https://example.org/a",
                         snippet := "Reducing emissions." }],
    relevant_memory_chunks := [],
    past_research_memories := [],
    error := "" }

/-- C4 counterexample: a `/research` response with
`status = "PartialFailure"`, a non-empty `final_summary` and non-empty
`search_results` is treated as an error by `handleSearch`: the summary and
results it displays stay empty and the generic error message is set, so
the populated fields are never shown. -/
theorem partialFailure_treated_as_error :
    (handleSearch initialUIState "climate change mitigation"
        (Except.ok partialFailureResponse)).summary = "" ∧
    (handleSearch initialUIState "climate change mitigation"
        (Except.ok partialFailureResponse)).results = [] ∧
    (handleSearch initialUIState "climate change mitigation"
        (Except.ok partialFailureResponse)).error =
      "Failed to complete research" ∧
    partialFailureResponse.final_summary ≠ "" ∧
    partialFailureResponse.search_results ≠ [] := by
  refine ⟨?_, ?_, ?_, by decide, by decide⟩ <;> decide

/-- C4 as amended: `handleSearch` does branch on the `status` field, but
only `status = "success"` is displayed; for every other status value —
`PartialFailure` included — it sets the error message
(`response.error || 'Failed to complete research'`) and leaves summary,
results and insights cleared, with `loading` off. -/
theorem nonSuccess_status_shows_error (s : UIState) (q : String)
    (r : ResearchResponse) (h : r.status ≠ "success") :
    (handleSearch s q (Except.ok r)).summary = "" ∧
    (handleSearch s q (Except.ok r)).results = [] ∧
    (handleSearch s q (Except.ok r)).insights = [] ∧
    (handleSearch s q (Except.ok r)).error =
      jsOrStr r.error "Failed to complete research" ∧
    (handleSearch s q (Except.ok r)).loading = false := by
  simp [handleSearch, h, clearForSearch]

/-- Witness for the amended C4 at the concrete `PartialFailure` response. -/
theorem nonSuccess_status_shows_error_witness :
    (handleSearch initialUIState "q"
        (Except.ok partialFailureResponse)).summary = "" ∧
    (handleSearch initialUIState "q"
        (Except.ok partialFailureResponse)).results = [] ∧
    (handleSearch initialUIState "q"
        (Except.ok partialFailureResponse)).insights = [] ∧
    (handleSearch initialUIState "q"
        (Except.ok partialFailureResponse)).error =
      jsOrStr partialFailureResponse.error "Failed to complete research" ∧
    (handleSearch initialUIState "q"
        (Except.ok partialFailureResponse)).loading = false :=
  nonSuccess_status_shows_error initialUIState "q" partialFailureResponse
    (by decide)

/-- C3 counterexample: a raw similarity of `0` — a value inside the
claimed `[0,1]` range — renders as `85% Match` in the knowledge-base list
(the `chunk.similarity || chunk.score || ...` chain treats `0` as falsy and
`normalizeSimilarity` substitutes the position-based fallback) while the
past-research list renders the same score as `0%`; a score of `1/2`
renders as `50`, outside `[0,1]`.  The two call sites thus apply different
backend-specific rescalings, and the value the caller displays is not the
`[0,1]` score the claim promises. -/
theorem similarity_rescaled_inconsistently :
    chunkDisplayPercent (some 0) none none none 0 = 85 ∧
    pastMemoryDisplayPercent 0 = 0 ∧
    chunkDisplayPercent (some (1/2)) none none none 0 = 50 ∧
    ¬((85 : ℤ) ≤ 1) := by
  refine ⟨?_, ?_, ?_, by norm_num⟩
  · norm_num [chunkDisplayPercent, chunkRawScore, jsOrQ, normalizeSimilarity]
  · norm_num [pastMemoryDisplayPercent, jsRound]
  · norm_num [chunkDisplayPercent, chunkRawScore, jsOrQ, normalizeSimilarity,
      jsRound]

/-- C3 as amended: similarity normalization happens in the UI caller, not
at the Memory Subsystem boundary: the knowledge-base renderer maps a raw
score of any scale to an integer percentage in `[15, 95]`, and a positive
score `p ≤ 1` is rescaled to `max 15 (min 95 (round (100 p)))` rather than
displayed as received. -/
theorem chunk_similarity_normalized_in_ui
    (sim sc d rel : Option ℚ) (i : ℕ) (p : ℚ) (hp0 : 0 < p) (hp1 : p ≤ 1) :
    (15 ≤ chunkDisplayPercent sim sc d rel i ∧
     chunkDisplayPercent sim sc d rel i ≤ 95) ∧
    chunkDisplayPercent (some p) none none none i =
      max 15 (min 95 (jsRound (p * 100))) := by
  refine ⟨normalizeSimilarity_mem _ i, ?_⟩
  have hne : p ≠ 0 := ne_of_gt hp0
  have hnlt : ¬ p < 0 := not_lt.mpr hp0.le
  simp [chunkDisplayPercent, chunkRawScore, jsOrQ, normalizeSimilarity, hne,
    hnlt, hp1]

/-- Witness for the amended C3 at `p = 1/2`, index `0`. -/
theorem chunk_similarity_normalized_in_ui_witness :
    (15 ≤ chunkDisplayPercent (some 42) none none none 0 ∧
     chunkDisplayPercent (some 42) none none none 0 ≤ 95) ∧
    chunkDisplayPercent (some (1/2)) none none none 0 =
      max 15 (min 95 (jsRound ((1/2 : ℚ) * 100))) :=
  chunk_similarity_normalized_in_ui (some 42) none none none 0 (1/2)
    (by norm_num) (by norm_num)

/-! ## Backend pipeline — modelled from the specification

The repository snapshot contains the backend only as documentation
(backend/README.md, ARCHITECTURE.md); the pipeline implementation itself
is absent.  The definitions below are therefore modelled from the
specification text (sections 3–5 and 7), as marked on each one.
-/

/-- Modelled from the spec: a `SearchResult` (section 3) — title, url,
snippet, produced by the Search Stage. -/
structure SearchResult where
  title : String
  url : String
  snippet : String
deriving DecidableEq

/-- Modelled from the spec: per-document extraction status (section 3). -/
inductive DocStatus where
  | ok
  | fetchFailed
  | emptyContent
deriving DecidableEq

/-- Modelled from the spec: an `ExtractedDocument` (section 3) — one per
SearchResult; failures mark the document unusable rather than removing it. -/
structure ExtractedDocument where
  url : String
  cleaned_text : String
  status : DocStatus
deriving DecidableEq

/-! ### Reader Stage (spec section 4.2, concurrency section 5) -/

/-- Modelled from the spec: the per-document character budget of the
Reader Stage. -/
def readerCharBudget : ℕ := 5000

/-- Modelled from the spec (section 4.2): the deterministic result of the
fetch task for one search result — a failed fetch yields `fetchFailed`, an
empty body `emptyContent`, otherwise the text truncated to the
per-document budget.  `fetch` is the content-fetching collaborator
(`none` = fetch error or timeout). -/
def fetchTask (fetch : String → Option String) (r : SearchResult) :
    ExtractedDocument :=
  match fetch r.url with
  | none => { url := r.url, cleaned_text := "", status := DocStatus.fetchFailed }
  | some t =>
      if t = "" then
        { url := r.url, cleaned_text := "", status := DocStatus.emptyContent }
      else
        { url := r.url, cleaned_text := ⟨t.data.take readerCharBudget⟩,
          status := DocStatus.ok }

/-- Modelled from the spec: `read` assembles one `ExtractedDocument` per
input search result, in input order (section 4.2). -/
def read (fetch : String → Option String) (results : List SearchResult) :
    List ExtractedDocument :=
  results.map (fetchTask fetch)

/-- Modelled from the spec (section 5): the concurrent reader writes each
completed fetch into the slot of its input index ("achieved by indexing,
not by completion sequence"); `order` is the order in which the fetches
complete. -/
def readSlots (fetch : String → Option String) (results : List SearchResult)
    (order : List ℕ) : ℕ → Option ExtractedDocument :=
  order.foldl
    (fun s j => Function.update s j ((results.get? j).map (fetchTask fetch)))
    (fun _ => none)

/-- Modelled from the spec: the concurrent reader's output — the filled
slots collected in input-index order. -/
def readConcurrent (fetch : String → Option String)
    (results : List SearchResult) (order : List ℕ) : List ExtractedDocument :=
  (List.range results.length).filterMap (readSlots fetch results order)

/-- A fold of indexed slot writes evaluates to the written value at every
index that was written, no matter in which order the writes happened. -/
lemma foldl_update_fun {β : Type} (f : ℕ → Option β) (order : List ℕ)
    (g : ℕ → Option β) (j : ℕ) :
    (order.foldl (fun s j2 => Function.update s j2 (f j2)) g) j =
      if j ∈ order then f j else g j := by
  induction order generalizing g with
  | nil => simp
  | cons a l ih =>
      simp only [List.foldl_cons, ih, List.mem_cons]
      by_cases hjl : j ∈ l
      · simp [hjl]
      · by_cases hja : j = a
        · subst hja; simp [hjl, Function.update_apply]
        · simp [hjl, hja, Function.update_apply]

/-- Collecting `l.get?` over `range l.length` through a map recovers
`l.map f`. -/
lemma filterMap_get_range {α β : Type} (l : List α) (f : α → β) :
    (List.range l.length).filterMap (fun j => (l.get? j).map f) = l.map f := by
  induction l with
  | nil => simp
  | cons a t ih =>
      rw [List.length_cons, List.range_succ_eq_map]
      simp only [List.filterMap_cons, List.get?_cons_zero, Option.map_some',
        List.filterMap_map, Function.comp_def, List.get?_cons_succ,
        List.map_cons, ih]

/-- C5: for every completion order that is a permutation of the task
indices, the concurrent reader's output equals the sequential `read`
output, whose `i`-th document is the extraction of the `i`-th input search
result — output order always equals input order. -/
theorem reader_output_matches_input_order (fetch : String → Option String)
    (results : List SearchResult) (order : List ℕ)
    (h : order.Perm (List.range results.length)) :
    readConcurrent fetch results order = read fetch results ∧
    ∀ i, (read fetch results).get? i = (results.get? i).map (fetchTask fetch) := by
  constructor
  · unfold readConcurrent
    have h1 : ∀ j ∈ List.range results.length,
        readSlots fetch results order j =
          (results.get? j).map (fetchTask fetch) := by
      intro j hj
      unfold readSlots
      rw [foldl_update_fun]
      simp [h.mem_iff.mpr hj]
    rw [List.filterMap_congr h1, filterMap_get_range]
    rfl
  · intro i
    simp [read, List.get?_map]

/-- Witness for C5: three search results, fetches completing in the order
2, 0, 1, with the middle fetch failing. -/
theorem reader_output_matches_input_order_witness :
    readConcurrent
        (fun u => if u = "https://b" then none else some "text")
        [⟨"A", "https://a", "sa"⟩, ⟨"B", "https://b", "sb"⟩,
         ⟨"C", "https://c", "sc"⟩] [2, 0, 1] =
      read (fun u => if u = "https://b" then none else some "text")
        [⟨"A", "https://a", "sa"⟩, ⟨"B", "https://b", "sb"⟩,
         ⟨"C", "https://c", "sc"⟩] ∧
    ∀ i, (read (fun u => if u = "https://b" then none else some "text")
        [⟨"A", "https://a", "sa"⟩, ⟨"B", "https://b", "sb"⟩,
         ⟨"C", "https://c", "sc"⟩]).get? i =
      (([⟨"A", "https://a", "sa"⟩, ⟨"B", "https://b", "sb"⟩,
         ⟨"C", "https://c", "sc"⟩] : List SearchResult).get? i).map
        (fetchTask (fun u => if u = "https://b" then none else some "text")) :=
  reader_output_matches_input_order _ _ [2, 0, 1] (by decide)

/-! ### Memory Subsystem (spec sections 3, 4.3) -/

/-- Modelled from the spec (section 4.3): the upsert key of a memory
chunk — "a hash of `(user_id, url, chunk_index, text)`" — modelled as the
tuple itself, i.e. a deterministic, collision-free content hash. -/
structure ChunkKey where
  user_id : String
  url : String
  chunk_index : ℕ
  text : String
deriving DecidableEq

/-- Modelled from the spec: a stored `MemoryChunk` (section 3).  The
`source_title` is not derivable from the spec's `store` signature and is
stored empty; `created_at` is the request clock value. -/
structure MemoryChunk where
  id : ChunkKey
  user_id : String
  text : String
  source_url : String
  source_title : String
  embedding : List ℚ
  created_at : ℕ
deriving DecidableEq

/-- Modelled from the spec: a `TopicMemory` (section 3) — one per
completed research request. -/
structure TopicMemory where
  id : String
  user_id : String
  query : String
  summary_text : String
  embedding : List ℚ
  created_at : ℕ
deriving DecidableEq

/-- Modelled from the spec: a `RetrievedChunk` (section 3) — a chunk plus
a similarity score. -/
structure RetrievedChunk where
  chunk : MemoryChunk
  similarity : ℚ
deriving DecidableEq

/-- Modelled from the spec: a `RetrievedTopic` (section 3). -/
structure RetrievedTopic where
  topic : TopicMemory
  similarity : ℚ
deriving DecidableEq

/-- Modelled from the spec (section 4.3): normalization of the backing
store's native score into `[0,1]` at the adapter boundary. -/
def clamp01 (q : ℚ) : ℚ := max 0 (min 1 q)

/-- Descending insertion by score (nearest neighbours first). -/
def insertDesc {α : Type} (x : α × ℚ) : List (α × ℚ) → List (α × ℚ)
  | [] => [x]
  | y :: ys => if y.2 ≤ x.2 then x :: y :: ys else y :: insertDesc x ys

/-- Descending sort by score. -/
def sortDesc {α : Type} : List (α × ℚ) → List (α × ℚ)
  | [] => []
  | x :: xs => insertDesc x (sortDesc xs)

/-- Modelled from the spec (sections 2, 3, 4.3): the Vector Store Adapter
query — score every point of the collection with the backend's native
metric `score`, restrict to the requesting `user_id` INSIDE the query (the
filter is part of the adapter, there is no post-filtering by callers),
normalize scores into `[0,1]`, and return the `k` nearest neighbours. -/
def vsQuery {α : Type} (score : List ℚ → List ℚ → ℚ) (userOf : α → String)
    (embOf : α → List ℚ) (points : List α) (uid : String) (qv : List ℚ)
    (k : ℕ) : List (α × ℚ) :=
  let inScope := points.filter (fun p => userOf p == uid)
  let scored := inScope.map (fun p => (p, clamp01 (score qv (embOf p))))
  (sortDesc scored).take k

/-- Modelled from the spec (section 4.3): `retrieve_context` queries the
two logical collections (raw chunks, topic summaries) through the adapter,
both filtered by `user_id`; it applies no filtering of its own. -/
def retrieve_context (score : List ℚ → List ℚ → ℚ) (chunks : List MemoryChunk)
    (topics : List TopicMemory) (uid : String) (qv : List ℚ)
    (k_chunks k_topics : ℕ) : List RetrievedChunk × List RetrievedTopic :=
  ((vsQuery score MemoryChunk.user_id MemoryChunk.embedding chunks uid qv
      k_chunks).map (fun p => { chunk := p.1, similarity := p.2 }),
   (vsQuery score TopicMemory.user_id TopicMemory.embedding topics uid qv
      k_topics).map (fun p => { topic := p.1, similarity := p.2 }))

lemma mem_insertDesc {α : Type} {a x : α × ℚ} {l : List (α × ℚ)}
    (h : a ∈ insertDesc x l) : a = x ∨ a ∈ l := by
  induction l with
  | nil => simpa [insertDesc] using h
  | cons y ys ih =>
      unfold insertDesc at h
      by_cases hc : y.2 ≤ x.2
      · rw [if_pos hc] at h
        rcases List.mem_cons.mp h with h1 | h1
        · exact Or.inl h1
        · exact Or.inr h1
      · rw [if_neg hc] at h
        rcases List.mem_cons.mp h with h1 | h1
        · exact Or.inr (by simp [h1])
        · rcases ih h1 with h2 | h2
          · exact Or.inl h2
          · exact Or.inr (by simp [h2])

lemma mem_sortDesc {α : Type} {a : α × ℚ} {l : List (α × ℚ)}
    (h : a ∈ sortDesc l) : a ∈ l := by
  induction l with
  | nil => simpa [sortDesc] using h
  | cons x xs ih =>
      unfold sortDesc at h
      rcases mem_insertDesc h with h2 | h2
      · simp [h2]
      · simp [ih h2]

/-- Every point returned by the adapter query belongs to the requesting
user: the `user_id` filter is applied inside the query. -/
lemma vsQuery_user_scoped {α : Type} (score : List ℚ → List ℚ → ℚ)
    (userOf : α → String) (embOf : α → List ℚ) (points : List α)
    (uid : String) (qv : List ℚ) (k : ℕ) :
    ∀ p ∈ vsQuery score userOf embOf points uid qv k, userOf p.1 = uid := by
  intro p hp
  unfold vsQuery at hp
  have h1 := List.mem_of_mem_take hp
  have h2 := mem_sortDesc h1
  rcases List.mem_map.mp h2 with ⟨q, hq, rfl⟩
  have := List.mem_filter.mp hq
  simpa using this.2

/-- C2: `retrieve_context` for user `A` never returns a chunk or topic of
another user `B`: every returned record carries `user_id = A`, because the
`user_id` filter runs inside the Vector Store Adapter query, not as
post-filtering. -/
theorem retrieve_context_user_isolation (score : List ℚ → List ℚ → ℚ)
    (chunks : List MemoryChunk) (topics : List TopicMemory) (A B : String)
    (qv : List ℚ) (kc kt : ℕ) (hAB : A ≠ B) :
    (∀ rc ∈ (retrieve_context score chunks topics A qv kc kt).1,
        rc.chunk.user_id = A ∧ rc.chunk.user_id ≠ B) ∧
    (∀ rt ∈ (retrieve_context score chunks topics A qv kc kt).2,
        rt.topic.user_id = A ∧ rt.topic.user_id ≠ B) := by
  constructor
  · intro rc hrc
    rcases List.mem_map.mp hrc with ⟨p, hp, rfl⟩
    have hu := vsQuery_user_scoped score MemoryChunk.user_id
      MemoryChunk.embedding chunks A qv kc p hp
    exact ⟨hu, hu ▸ hAB⟩
  · intro rt hrt
    rcases List.mem_map.mp hrt with ⟨p, hp, rfl⟩
    have hu := vsQuery_user_scoped score TopicMemory.user_id
      TopicMemory.embedding topics A qv kt p hp
    exact ⟨hu, hu ▸ hAB⟩

/-- A concrete two-user store for the C2 witness. -/
def chunkOfUser (u : String) : MemoryChunk :=
  { id := { user_id := u, url := "https://e.org", chunk_index := 0, text := "t" },
    user_id := u, text := "t", source_url := "https://e.org",
    source_title := "", embedding := [1], created_at := 0 }

/-- A concrete topic store for the C2 witness. -/
def topicOfUser (u : String) : TopicMemory :=
  { id := u ++ "-topic", user_id := u, query := "q", summary_text := "s",
    embedding := [1], created_at := 0 }

/-- Witness for C2: two users with overlapping data; user A's retrieval
returns only user-A records. -/
theorem retrieve_context_user_isolation_witness :
    (∀ rc ∈ (retrieve_context (fun _ _ => 1)
        [chunkOfUser "A", chunkOfUser "B"]
        [topicOfUser "A", topicOfUser "B"] "A" [1] 5 5).1,
        rc.chunk.user_id = "A" ∧ rc.chunk.user_id ≠ "B") ∧
    (∀ rt ∈ (retrieve_context (fun _ _ => 1)
        [chunkOfUser "A", chunkOfUser "B"]
        [topicOfUser "A", topicOfUser "B"] "A" [1] 5 5).2,
        rt.topic.user_id = "A" ∧ rt.topic.user_id ≠ "B") :=
  retrieve_context_user_isolation (fun _ _ => 1)
    [chunkOfUser "A", chunkOfUser "B"] [topicOfUser "A", topicOfUser "B"]
    "A" "B" [1] 5 5 (by decide)

/-! ### Summarization Stage (spec section 4.4) -/

/-- Modelled from the spec: a `SummaryResult` (section 4.4). -/
structure SummaryResult where
  final_summary : String
  top_insights : List String
  raw_provider_used : String
deriving DecidableEq

/-- Modelled from the spec (section 4.4 step 1): truncate a list of texts
to an aggregate character budget, earlier texts prioritized. -/
def takeBudget : ℕ → List String → List String
  | _, [] => []
  | budget, t :: ts =>
      if budget = 0 then []
      else (⟨t.data.take budget⟩ : String) :: takeBudget (budget - t.length) ts

/-- Modelled from the spec: the usable document text — only `status = Ok`
documents contribute to the prompt. -/
def usableTexts (docs : List ExtractedDocument) : List String :=
  docs.filterMap
    (fun d => if d.status = DocStatus.ok then some d.cleaned_text else none)

/-- Modelled from the spec: a short digest of retrieved memory (chunks and
topic summaries), labeled as related past research. -/
def memoryDigest (chunks : List RetrievedChunk) (topics : List RetrievedTopic) :
    String :=
  String.intercalate " "
    (chunks.map (fun c => c.chunk.text) ++ topics.map (fun t => t.topic.summary_text))

/-- Modelled from the spec (section 4.4 step 1): one prompt combining the
query, the concatenated usable document text under an aggregate budget of
15000 characters, and the retrieved-memory digest. -/
def buildPrompt (query : String) (docs : List ExtractedDocument)
    (chunks : List RetrievedChunk) (topics : List RetrievedTopic) : String :=
  query ++ " " ++ String.intercalate " " (takeBudget 15000 (usableTexts docs)) ++
    " related past research: " ++ memoryDigest chunks topics

/-- Modelled from the spec (section 4.4): the linear failover chain — each
LLM provider is a function from the prompt to an optional structured
result (`none` = quota, region restriction, timeout, or malformed
response); each is tried at most once, in order, and the first success is
returned. -/
def attemptChain (prompt : String) :
    List (String → Option SummaryResult) → Option SummaryResult
  | [] => none
  | p :: ps =>
      match p prompt with
      | some s => some s
      | none => attemptChain prompt ps

/-- Joining non-empty pieces with single spaces. -/
def joinPieces : List String → String
  | [] => ""
  | [x] => x
  | x :: xs => x ++ " " ++ joinPieces xs

/-- Modelled from the spec (section 4.4 step 4): the `ExtractiveFallback`
provider — a summary synthesized purely from the already-available search
result titles and snippets; no network call, total by construction. -/
def extractiveFallback (results : List SearchResult) : SummaryResult :=
  { final_summary :=
      joinPieces (results.map (fun r => r.title ++ ": " ++ r.snippet)),
    top_insights := results.map (fun r => r.title),
    raw_provider_used := "extractive" }

/-- Modelled from the spec (section 4.4): `summarize` — build one prompt,
walk the provider chain, and fall back to the extractive summary when
every provider fails.  The search results are threaded through because the
extractive fallback reads their titles and snippets. -/
def summarize (providers : List (String → Option SummaryResult))
    (query : String) (docs : List ExtractedDocument)
    (chunks : List RetrievedChunk) (topics : List RetrievedTopic)
    (results : List SearchResult) : SummaryResult :=
  match attemptChain (buildPrompt query docs chunks topics) providers with
  | some s => s
  | none => extractiveFallback results

lemma attemptChain_eq_none (prompt : String)
    (providers : List (String → Option SummaryResult))
    (h : ∀ p ∈ providers, p prompt = none) :
    attemptChain prompt providers = none := by
  induction providers with
  | nil => rfl
  | cons p ps ih =>
      unfold attemptChain
      rw [h p (by simp)]
      exact ih (fun q hq => h q (by simp [hq]))

lemma joinPieces_length_ge_head (x : String) (xs : List String) :
    x.length ≤ (joinPieces (x :: xs)).length := by
  cases xs with
  | nil => simp [joinPieces]
  | cons y ys =>
      simp only [joinPieces, String.length_append]
      omega

/-- C1: if every configured LLM provider fails on the built prompt,
`summarize` still returns (it is a total function — no exception
escapes) and its result is exactly the extractive fallback synthesized
from the search result titles and snippets, with a non-empty
`final_summary`. -/
theorem summarize_fallback_nonempty
    (providers : List (String → Option SummaryResult)) (query : String)
    (docs : List ExtractedDocument) (chunks : List RetrievedChunk)
    (topics : List RetrievedTopic) (results : List SearchResult)
    (hfail : ∀ p ∈ providers, p (buildPrompt query docs chunks topics) = none)
    (hres : results ≠ []) :
    summarize providers query docs chunks topics results =
      extractiveFallback results ∧
    (summarize providers query docs chunks topics results).final_summary ≠ "" := by
  have hchain := attemptChain_eq_none (buildPrompt query docs chunks topics)
    providers hfail
  have heq : summarize providers query docs chunks topics results =
      extractiveFallback results := by
    unfold summarize
    rw [hchain]
  refine ⟨heq, ?_⟩
  rw [heq]
  cases results with
  | nil => exact absurd rfl hres
  | cons r rs =>
      intro hempty
      have hlen : (r.title ++ ": " ++ r.snippet).length ≤
          (extractiveFallback (r :: rs)).final_summary.length := by
        simpa [extractiveFallback] using
          joinPieces_length_ge_head (r.title ++ ": " ++ r.snippet)
            (rs.map (fun q => q.title ++ ": " ++ q.snippet))
      rw [hempty] at hlen
      simp only [String.length_append] at hlen
      have h2 : (": " : String).length = 2 := rfl
      have h0 : ("" : String).length = 0 := rfl
      omega

/-- Witness for C1: three failing providers (Primary, Secondary, Tertiary)
over one search result. -/
theorem summarize_fallback_nonempty_witness :
    summarize [fun _ => none, fun _ => none, fun _ => none] "solar power"
        [] [] [] [⟨"Solar", "https://e.org/s", "Costs are falling."⟩] =
      extractiveFallback [⟨"Solar", "https://e.org/s", "Costs are falling."⟩] ∧
    (summarize [fun _ => none, fun _ => none, fun _ => none] "solar power"
        [] [] [] [⟨"Solar", "https://e.org/s",
          "Costs are falling."⟩]).final_summary ≠ "" :=
  summarize_fallback_nonempty _ "solar power" [] [] [] _
    (by
      intro p hp
      simp only [List.mem_cons, List.not_mem_nil, or_false] at hp
      rcases hp with h | h | h <;> subst h <;> rfl)
    (by simp)

/-! ### Memory storage (spec section 4.3, `store`) -/

/-- Modelled from the spec (sections 3, 4.3): fixed chunking
configuration — chunk size 512 with 100-character overlap, so successive
chunks start `512 - 100` characters apart. -/
def chunkSize : ℕ := 512

/-- Modelled from the spec: the overlap between neighbouring chunks. -/
def chunkOverlap : ℕ := 100

/-- The distance between successive chunk start positions. -/
def chunkStep : ℕ := chunkSize - chunkOverlap

/-- Number of chunks covering a text of the given length. -/
def numChunks (len : ℕ) : ℕ := (len + chunkStep - 1) / chunkStep

/-- Modelled from the spec (section 4.3): split a document text into
fixed-size chunks with fixed overlap. -/
def splitChunks (text : String) : List String :=
  (List.range (numChunks text.length)).map
    (fun i => (⟨(text.data.drop (i * chunkStep)).take chunkSize⟩ : String))

/-- Modelled from the spec: the `(key, value)` pair upserted for chunk
number `i` with text `c` of document `d`: the key is the content hash of
`(user_id, url, chunk_index, text)` and the value the stored
`MemoryChunk`, embedded with the deterministic embedding model and stamped
with the request clock `now`. -/
def chunkPoint (embed : String → List ℚ) (uid : String) (now : ℕ)
    (d : ExtractedDocument) (i : ℕ) (c : String) : ChunkKey × MemoryChunk :=
  ({ user_id := uid, url := d.url, chunk_index := i, text := c },
   { id := { user_id := uid, url := d.url, chunk_index := i, text := c },
     user_id := uid, text := c, source_url := d.url, source_title := "",
     embedding := embed c, created_at := now })

/-- Modelled from the spec: the full upsert list of one `store` call —
every successfully-extracted document is split into chunks and each chunk
becomes one keyed write. -/
def chunkWrites (embed : String → List ℚ) (uid : String) (now : ℕ)
    (docs : List ExtractedDocument) : List (ChunkKey × MemoryChunk) :=
  (docs.filter (fun d => d.status == DocStatus.ok)).flatMap
    (fun d => (splitChunks d.cleaned_text).enum.map
      (fun ic => chunkPoint embed uid now d ic.1 ic.2))

/-- The chunk collection of the vector store, as the id-keyed map the
backend's upsert operation maintains. -/
abbrev ChunkStore : Type := ChunkKey → Option MemoryChunk

/-- The topic collection, keyed by topic id. -/
abbrev TopicStore : Type := String → Option TopicMemory

/-- One keyed upsert: insert-or-replace at the point id. -/
def upsertChunk (m : ChunkStore) (p : ChunkKey × MemoryChunk) : ChunkStore :=
  Function.update m p.1 (some p.2)

/-- Modelled from the spec (section 4.3): `store` — split, embed and
upsert every chunk of the successfully-extracted documents, upsert the new
`TopicMemory`, and return the stored-chunk count. -/
def store (embed : String → List ℚ) (uid : String)
    (docs : List ExtractedDocument) (topic : TopicMemory) (now : ℕ)
    (m : ChunkStore) (tm : TopicStore) : (ChunkStore × TopicStore) × ℕ :=
  (((chunkWrites embed uid now docs).foldl upsertChunk m,
    Function.update tm topic.id (some topic)),
   (chunkWrites embed uid now docs).length)

/-- The last value written for a key by a list of keyed writes. -/
def lastWrite {κ β : Type} [DecidableEq κ] (l : List (κ × β)) (k : κ) :
    Option β :=
  l.foldl (fun acc p => if p.1 = k then some p.2 else acc) none

lemma lastWrite_foldl_acc {κ β : Type} [DecidableEq κ] (l : List (κ × β))
    (k : κ) (acc : Option β) :
    l.foldl (fun a p => if p.1 = k then some p.2 else a) acc =
      Option.elim (lastWrite l k) acc some := by
  induction l generalizing acc with
  | nil => simp [lastWrite]
  | cons p ps ih =>
      rw [List.foldl_cons, ih]
      have hl : lastWrite (p :: ps) k =
          Option.elim (lastWrite ps k) (if p.1 = k then some p.2 else none)
            some := by
        unfold lastWrite
        rw [List.foldl_cons, ih]
        rfl
      rw [hl]
      cases lastWrite ps k with
      | some v => simp
      | none =>
          by_cases hpk : p.1 = k
          · simp [hpk]
          · simp [hpk]

/-- Convenient cons unfolding of `lastWrite`. -/
lemma lastWrite_cons {κ β : Type} [DecidableEq κ] (p : κ × β)
    (ps : List (κ × β)) (k : κ) :
    lastWrite (p :: ps) k =
      Option.elim (lastWrite ps k) (if p.1 = k then some p.2 else none)
        some := by
  unfold lastWrite
  rw [List.foldl_cons, lastWrite_foldl_acc]
  rfl

/-- Evaluating a fold of keyed upserts: the last write for the key wins,
otherwise the initial map is unchanged. -/
lemma foldl_upsert_eval {κ β : Type} [DecidableEq κ] (l : List (κ × β))
    (g : κ → Option β) (k : κ) :
    (l.foldl (fun (s : κ → Option β) (p : κ × β) =>
        Function.update s p.1 (some p.2)) g) k =
      Option.elim (lastWrite l k) (g k) some := by
  induction l generalizing g with
  | nil => simp [lastWrite]
  | cons p ps ih =>
      rw [List.foldl_cons, ih, lastWrite_cons]
      cases lastWrite ps k with
      | some v => simp
      | none =>
          by_cases hpk : p.1 = k
          · subst hpk; simp
          · have hkp : ¬ k = p.1 := fun h => hpk h.symm
            simp [Function.update_apply, hpk, hkp]

/-- Replaying the same keyed write list is a no-op: the second pass
overwrites every key with the value the first pass already left there. -/
lemma foldl_upsert_idem {κ β : Type} [DecidableEq κ] (l : List (κ × β))
    (g : κ → Option β) :
    l.foldl (fun (s : κ → Option β) (p : κ × β) =>
        Function.update s p.1 (some p.2))
        (l.foldl (fun (s : κ → Option β) (p : κ × β) =>
          Function.update s p.1 (some p.2)) g) =
      l.foldl (fun (s : κ → Option β) (p : κ × β) =>
        Function.update s p.1 (some p.2)) g := by
  funext k
  rw [foldl_upsert_eval, foldl_upsert_eval]
  cases lastWrite l k with
  | some v => simp
  | none => simp

lemma update_idem {κ β : Type} [DecidableEq κ] (g : κ → Option β) (k : κ)
    (v : Option β) :
    Function.update (Function.update g k v) k v = Function.update g k v := by
  funext j
  by_cases hj : j = k
  · subst hj; simp
  · simp [Function.update_apply, hj]

/-- C6: storing the same extracted documents twice for the same user is
idempotent: the second `store` call issues writes with exactly the same
content-hash keys (the id is a function of `(user_id, url, chunk_index,
text)` only), reports the same stored-chunk count, and leaves both the
chunk collection and the topic collection exactly as the first call left
them — no duplicate entries are created. -/
theorem store_idempotent (embed : String → List ℚ) (uid : String)
    (docs : List ExtractedDocument) (topic : TopicMemory) (now : ℕ)
    (m : ChunkStore) (tm : TopicStore) :
    store embed uid docs topic now
        (store embed uid docs topic now m tm).1.1
        (store embed uid docs topic now m tm).1.2 =
      store embed uid docs topic now m tm ∧
    (∀ w ∈ chunkWrites embed uid now docs,
        w.1 = w.2.id ∧ w.1.user_id = uid) := by
  constructor
  · unfold store
    simp only [Prod.mk.injEq]
    exact ⟨⟨foldl_upsert_idem _ _, update_idem _ _ _⟩, trivial⟩
  · intro w hw
    unfold chunkWrites at hw
    rcases List.mem_flatMap.mp hw with ⟨d, hd, hw2⟩
    rcases List.mem_map.mp hw2 with ⟨ic, hic, rfl⟩
    exact ⟨rfl, rfl⟩

end Insightor
